import Mathlib

set_option maxHeartbeats 1000000

/-!
Verification development for the flowlogs-reader repository
(`flowlogs_reader/flowlogs_reader.py`).  The Python code is shallowly
embedded: strings are Lean strings restricted to the ASCII fragment the
log format uses, machine integers are unbounded `Int`/`Nat` (Python ints
are unbounded too), `datetime` instants are represented by their integer
count of microseconds since the Unix epoch, and fallible operations
return `Option`.  Floating-point rounding of `utcfromtimestamp` at
astronomical magnitudes (beyond year 9999, which the code rejects
anyway) is abstracted away: a millisecond count `n` maps to exactly
`n * 1000` microseconds.
-/

/-- Whitespace characters recognised by Python `str.split()` (ASCII scope). -/
def pyIsSpace (c : Char) : Bool :=
  c == ' ' || c == '\t' || c == '\n' || c == '\r' || c == '\x0b' || c == '\x0c'

/-- Worker for Python `str.split()` with no separator argument: split on runs
of whitespace and discard empty tokens.  `acc` holds the current
partially-read token. -/
def splitWsGo : List Char → List Char → List (List Char)
  | [], acc => if acc = [] then [] else [acc]
  | c :: cs, acc =>
    if pyIsSpace c then
      if acc = [] then splitWsGo cs [] else acc :: splitWsGo cs []
    else
      splitWsGo cs (acc ++ [c])

/-- Python `str.split()` with no arguments, as used by `FlowRecord.__init__`
(`event['message'].split()`). -/
def pySplit (s : String) : List String :=
  (splitWsGo s.data []).map List.asString

/-- Numeric value of an ASCII digit character. -/
def digitVal (c : Char) : Nat := c.toNat - 48

/-- Consume the remaining characters of a base-10 integer literal after its
first digit, accumulating the value.  Python `int()` allows single
underscores strictly between digits. -/
def digRun : List Char → Nat → Option Nat
  | [], acc => some acc
  | c :: cs, acc =>
    if c.isDigit then digRun cs (acc * 10 + digitVal c)
    else if c = '_' then
      match cs with
      | d :: cs2 => if d.isDigit then digRun cs2 (acc * 10 + digitVal d) else none
      | [] => none
    else none

/-- Parse an unsigned base-10 integer literal the way Python `int()` does
(nonempty, first character a digit, single underscores between digits). -/
def natOfToken : List Char → Option Nat
  | [] => none
  | c :: cs => if c.isDigit then digRun cs (digitVal c) else none

/-- Python `int(token)` on a whitespace-free token: optional sign followed by
digits.  Returns `none` where Python raises `ValueError`. -/
def pyIntChars (cs : List Char) : Option Int :=
  match cs with
  | c :: rest =>
    if c = '-' then (natOfToken rest).map (fun n => -(n : Int))
    else if c = '+' then (natOfToken rest).map (fun n => (n : Int))
    else (natOfToken cs).map (fun n => (n : Int))
  | [] => none

/-- Python `int(s)` for a token produced by `str.split()`. -/
def pyInt (s : String) : Option Int := pyIntChars s.data

/-- Days from the civil epoch 1970-01-01 for a proleptic-Gregorian date
(the arithmetic underlying `calendar.timegm` and `datetime`). -/
def daysFromCivil (y m d : Int) : Int :=
  let y2 := if m ≤ 2 then y - 1 else y
  let era := y2 / 400
  let yoe := y2 - era * 400
  let mp := (m + 9) % 12
  let doy := (153 * mp + 2) / 5 + d - 1
  let doe := yoe * 365 + yoe / 4 - yoe / 100 + doy
  era * 146097 + doe - 719468

/-- Seconds since the Unix epoch of a UTC civil date-time
(`calendar.timegm` of a `struct_time`). -/
def tsOfCivil (y m d h mi s : Int) : Int :=
  daysFromCivil y m d * 86400 + h * 3600 + mi * 60 + s

/-- Civil date (year, month, day) of a day count since 1970-01-01; inverse of
`daysFromCivil`. -/
def civilFromDays (z0 : Int) : Int × Int × Int :=
  let z := z0 + 719468
  let era := z / 146097
  let doe := z - era * 146097
  let yoe := (doe - doe / 1460 + doe / 36524 - doe / 146096) / 365
  let y := yoe + era * 400
  let doy := doe - (365 * yoe + yoe / 4 - yoe / 100)
  let mp := (5 * doy + 2) / 153
  let d := doy - (153 * mp + 2) / 5 + 1
  let m := mp + (if mp < 10 then 3 else -9)
  (if m ≤ 2 then y + 1 else y, m, d)

/-- The default value of the `EPOCH_32_MAX` parameter of
`FlowRecord.__init__`: the 32-bit signed epoch maximum. -/
def EPOCH_32_MAX : Int := 2147483647

/-- Smallest epoch second representable by `datetime` (year 1). -/
def MIN_DATETIME_S : Int := tsOfCivil 1 1 1 0 0 0

/-- Largest whole epoch second representable by `datetime` (year 9999). -/
def MAX_DATETIME_S : Int := tsOfCivil 9999 12 31 23 59 59

/-- Parse a `start`/`end` token of a flow-log line: `int(tok)`, the
millisecond heuristic (`if start > EPOCH_32_MAX: start /= 1000`), and
`datetime.utcfromtimestamp` (which raises outside the year 1..9999 range).
The result is in microseconds since the epoch. -/
def parseTimestampTok (tok : String) : Option Int :=
  match pyInt tok with
  | none => none
  | some n =>
    let us := if EPOCH_32_MAX < n then n * 1000 else n * 1000000
    if MIN_DATETIME_S * 1000000 ≤ us ∧ us ≤ MAX_DATETIME_S * 1000000 + 999999 then
      some us
    else none

/-- The string constant `NODATA`. -/
def NODATA : String := "NODATA"

/-- The string constant `SKIPDATA`. -/
def SKIPDATA : String := "SKIPDATA"

/-- The module constant `DUPLICATE_NEXT_TOKEN_MESSAGE`. -/
def DUPLICATE_NEXT_TOKEN_MESSAGE : String := "The same next token was received twice"

/-- The `FlowRecord` value object: one slot per `__slots__` entry, in order.
`start`/`end` are instants in microseconds since the epoch (`end` is a Lean
keyword, hence `end_`).  Fields nulled out for `NODATA`/`SKIPDATA` records
are `Option`s. -/
structure FlowRecord where
  version : Int
  account_id : String
  interface_id : String
  srcaddr : Option String
  dstaddr : Option String
  srcport : Option Int
  dstport : Option Int
  protocol : Option Int
  packets : Option Int
  bytes : Option Int
  start : Int
  end_ : Int
  action : Option String
  log_status : String

deriving instance DecidableEq, Repr, Inhabited for FlowRecord

/-- The else-branch of `FlowRecord.__init__`: parse the traffic-detail
fields 3-9 and 12 of a non-sentinel record. -/
def parseDetail (v : Int) (f1 f2 : String) (st en : Int) (f13 : String)
    (f3 f4 f5 f6 f7 f8 f9 f12 : String) : Option FlowRecord :=
  match pyInt f5, pyInt f6, pyInt f7, pyInt f8, pyInt f9 with
  | some sp, some dp, some pr, some pk, some bt =>
    some ⟨v, f1, f2, some f3, some f4, some sp, some dp, some pr, some pk,
      some bt, st, en, some f12, f13⟩
  | _, _, _, _, _ => none

/-- Body of `FlowRecord.__init__` on the 14 accessed field tokens: parse the
integer-valued fields 0, 10 and 11, then branch on the sentinel
`log_status` values (fields 3-9 and 12 are converted only in the
non-sentinel branch). -/
def parseAll (f0 f1 f2 f3 f4 f5 f6 f7 f8 f9 f10 f11 f12 f13 : String) :
    Option FlowRecord :=
  match pyInt f0, parseTimestampTok f10, parseTimestampTok f11 with
  | some v, some st, some en =>
    if f13 = NODATA ∨ f13 = SKIPDATA then
      some ⟨v, f1, f2, none, none, none, none, none, none, none, st, en, none, f13⟩
    else
      parseDetail v f1 f2 st en f13 f3 f4 f5 f6 f7 f8 f9 f12
  | _, _, _ => none

/-- `FlowRecord.__init__` applied to an already-split message.  The Python
constructor indexes `fields[13]` unconditionally, so it raises `IndexError`
exactly when fewer than 14 tokens are present (extra tokens are ignored);
with at least 14 tokens every access `fields[i]`, `i ≤ 13`, is in range, so
the body is `parseAll` on the first 14 tokens.  Returns `none` where the
constructor raises (`IndexError`, `ValueError`, out-of-range timestamp). -/
def parseFields (fs : List String) : Option FlowRecord :=
  if fs.length < 14 then none
  else
    parseAll (fs.getD 0 "") (fs.getD 1 "") (fs.getD 2 "") (fs.getD 3 "")
      (fs.getD 4 "") (fs.getD 5 "") (fs.getD 6 "") (fs.getD 7 "")
      (fs.getD 8 "") (fs.getD 9 "") (fs.getD 10 "") (fs.getD 11 "")
      (fs.getD 12 "") (fs.getD 13 "")

/-- `FlowRecord.from_message`: split the raw line and run the constructor. -/
def parseMessage (msg : String) : Option FlowRecord :=
  parseFields (pySplit msg)

/-- Decimal digit characters of `n`, most significant first; `fuel` bounds the
recursion depth (any `fuel > n` suffices). -/
def natStrAux : Nat → Nat → List Char
  | 0, _ => []
  | fuel + 1, n =>
    if n < 10 then [Char.ofNat (48 + n)]
    else natStrAux fuel (n / 10) ++ [Char.ofNat (48 + n % 10)]

/-- Decimal digit characters of a natural number. -/
def natStr (n : Nat) : List Char := natStrAux (n + 1) n

/-- Python `str(n)` for an integer `n`. -/
def intStr (n : Int) : String :=
  if n < 0 then List.asString ('-' :: natStr n.natAbs) else List.asString (natStr n.natAbs)

/-- The default `to_message` field transform on a string slot:
`str(x) if x else '-'` (the empty string is falsy). -/
def renderStr (s : String) : String := if s = "" then "-" else s

/-- The default `to_message` field transform on a nullable string slot
(`None` is falsy). -/
def renderOptStr : Option String → String
  | none => "-"
  | some s => renderStr s

/-- The default `to_message` field transform on an integer slot
(`0` is falsy). -/
def renderInt (n : Int) : String := if n = 0 then "-" else intStr n

/-- The default `to_message` field transform on a nullable integer slot. -/
def renderOptInt : Option Int → String
  | none => "-"
  | some n => renderInt n

/-- The `to_message` transform for `start`/`end`:
`str(timegm(dt.utctimetuple()))`, i.e. the instant truncated to whole
seconds since the epoch. -/
def renderTimestamp (us : Int) : String := intStr (us / 1000000)

/-- The 14 serialized tokens of `FlowRecord.to_message`, in slot order. -/
def messageTokens (r : FlowRecord) : List String :=
  [renderInt r.version, renderStr r.account_id, renderStr r.interface_id,
   renderOptStr r.srcaddr, renderOptStr r.dstaddr, renderOptInt r.srcport,
   renderOptInt r.dstport, renderOptInt r.protocol, renderOptInt r.packets,
   renderOptInt r.bytes, renderTimestamp r.start, renderTimestamp r.end_,
   renderOptStr r.action, renderStr r.log_status]

/-- Join tokens with single spaces (`' '.join`). -/
def joinTokens : List (List Char) → List Char
  | [] => []
  | [t] => t
  | t :: t2 :: ts => t ++ ' ' :: joinTokens (t2 :: ts)

/-- `FlowRecord.to_message`: serialize each slot and join with spaces. -/
def to_message (r : FlowRecord) : String :=
  List.asString (joinTokens ((messageTokens r).map String.data))

/-- Well-formedness of a token list for `FlowRecord.__init__`: at least 14
tokens, integer-parseable version and in-range timestamps, and — unless
`log_status` is a sentinel value — integer-parseable traffic-detail
fields. -/
def wellFormedFields (fs : List String) : Prop :=
  14 ≤ fs.length ∧ (pyInt (fs.getD 0 "")).isSome = true ∧
    (parseTimestampTok (fs.getD 10 "")).isSome = true ∧
    (parseTimestampTok (fs.getD 11 "")).isSome = true ∧
    ((fs.getD 13 "" = NODATA ∨ fs.getD 13 "" = SKIPDATA) ∨
      ((pyInt (fs.getD 5 "")).isSome = true ∧ (pyInt (fs.getD 6 "")).isSome = true ∧
        (pyInt (fs.getD 7 "")).isSome = true ∧ (pyInt (fs.getD 8 "")).isSome = true ∧
        (pyInt (fs.getD 9 "")).isSome = true))

instance wellFormedFieldsDecidable : DecidablePred wellFormedFields := fun fs => by
  unfold wellFormedFields
  infer_instance

/-- `FlowLogsReader._read_streams`: iterate the pages of the
`filter_log_events` paginator, yielding every event of every page; when the
paginator then raises a `PaginationError` whose message starts with
`DUPLICATE_NEXT_TOKEN_MESSAGE` the generator returns normally, any other
`PaginationError` propagates.  `pages` are the pages delivered before the
paginator either finishes or raises the fault carried by `fault`; the
result is the yielded events paired with the propagated fault, if any. -/
def readStreams {α : Type} (pages : List (List α)) (fault : Option String) :
    List α × Option String :=
  match pages with
  | [] =>
    match fault with
    | none => ([], none)
    | some m =>
      if m.startsWith DUPLICATE_NEXT_TOKEN_MESSAGE then ([], none) else ([], some m)
  | p :: ps =>
    let rest := readStreams ps fault
    (p ++ rest.1, rest.2)

/-- `FlowRecord.__eq__` between two records: slot-by-slot comparison. -/
def recordEq (a b : FlowRecord) : Bool :=
  decide (a.version = b.version) && decide (a.account_id = b.account_id) &&
    decide (a.interface_id = b.interface_id) && decide (a.srcaddr = b.srcaddr) &&
    decide (a.dstaddr = b.dstaddr) && decide (a.srcport = b.srcport) &&
    decide (a.dstport = b.dstport) && decide (a.protocol = b.protocol) &&
    decide (a.packets = b.packets) && decide (a.bytes = b.bytes) &&
    decide (a.start = b.start) && decide (a.end_ = b.end_) &&
    decide (a.action = b.action) && decide (a.log_status = b.log_status)

/-- The tuple of the 14 slot values, as built by `FlowRecord.__hash__`
(`tuple(getattr(self, x) for x in self.__slots__)`). -/
def fieldTuple (r : FlowRecord) :
    Int × String × String × Option String × Option String × Option Int ×
      Option Int × Option Int × Option Int × Option Int × Int × Int ×
      Option String × String :=
  (r.version, r.account_id, r.interface_id, r.srcaddr, r.dstaddr, r.srcport,
   r.dstport, r.protocol, r.packets, r.bytes, r.start, r.end_, r.action,
   r.log_status)

/-- `FlowRecord.__hash__`: a hash of the tuple of the 14 slot values. -/
def recHash (r : FlowRecord) : UInt64 := hash (fieldTuple r)

/-- Python set insertion keyed by `__eq__`: keep the existing element if an
equal one is present. -/
def setInsert (l : List FlowRecord) (r : FlowRecord) : List FlowRecord :=
  if l.any (fun x => recordEq x r) then l else l ++ [r]

/-- The set of distinct records of a list, built by repeated insertion. -/
def setOfList (rs : List FlowRecord) : List FlowRecord :=
  rs.foldl setInsert []

/-- The first sample record line of the test suite. -/
def SAMPLE_0 : String :=
  "2 123456789010 eni-102010ab 198.51.100.1 192.0.2.1 443 49152 6 10 840 1439387263 1439387264 ACCEPT OK"

/-- The second sample record line of the test suite. -/
def SAMPLE_1 : String :=
  "2 123456789010 eni-102010ab 192.0.2.1 198.51.100.1 49152 443 6 20 1680 1439387264 1439387265 ACCEPT OK"

/-- The third sample record line of the test suite. -/
def SAMPLE_2 : String :=
  "2 123456789010 eni-102010cd 192.0.2.1 198.51.100.1 49152 443 6 20 1680 1439387263 1439387266 REJECT OK"

/-- The set built from six records parsed from three distinct lines, each
line used twice (the `test_hash` scenario). -/
def sampleSet : List FlowRecord :=
  setOfList (([SAMPLE_0, SAMPLE_0, SAMPLE_1, SAMPLE_1, SAMPLE_2, SAMPLE_2]).map
    (fun s => (parseMessage s).getD default))

/-- Microseconds per calendar day. -/
def usPerDay : Int := 86400000000

/-- Day number since the epoch of an instant: the effect of
`replace(hour=0, minute=0, second=0, microsecond=0)` measured in days. -/
def dayNumber (us : Int) : Int := us / usPerDay

/-- Zero-pad a month or day value to two characters (`%m`, `%d`). -/
def pad2 (n : Int) : String := if n < 10 then "0" ++ intStr n else intStr n

/-- `dt.strftime('%Y/%m/%d/')` for the start of the given epoch day. -/
def formatDayFrag (day : Int) : String :=
  match civilFromDays day with
  | (y, m, d) => intStr y ++ "/" ++ pad2 m ++ "/" ++ pad2 d ++ "/"

/-- `S3FlowLogsReader._get_date_prefixes`: `rrule(DAILY)` from the
start-of-day of `start_time` to the start-of-day of `end_time` inclusive,
each formatted as `YYYY/MM/DD/`. -/
def getDatePrefixes (startUs endUs : Int) : List String :=
  (List.range (dayNumber endUs - dayNumber startUs + 1).toNat).map
    (fun i : Nat => formatDayFrag (dayNumber startUs + (i : Int)))

/-- `os.path.basename`: the part of a key after its last slash. -/
def pyBasename (s : String) : String :=
  List.asString ((s.data.reverse.takeWhile (fun c => c ≠ '/')).reverse)

/-- Worker for a full split on a separator character, keeping empty
segments. -/
def splitOnCharGo (sep : Char) : List Char → List Char → List (List Char)
  | [], acc => [acc]
  | c :: cs, acc =>
    if c = sep then acc :: splitOnCharGo sep cs [] else splitOnCharGo sep cs (acc ++ [c])

/-- Split on every occurrence of a separator character (Python
`str.split(sep)` with no count limit). -/
def splitOnChar (sep : Char) (cs : List Char) : List (List Char) :=
  splitOnCharGo sep cs []

/-- Python `name.rsplit('_', 2)`: at most two splits, taken from the right,
so a name with at least two underscores yields three parts whose middle is
the second-to-last underscore-delimited segment, and a name with exactly
one underscore yields two parts whose index 1 is the *last* segment. -/
def rsplitU2 (s : String) : List String :=
  let parts := (splitOnChar '_' s.data).map List.asString
  if parts.length ≤ 3 then parts
  else
    String.intercalate "_" (parts.take (parts.length - 2)) ::
      parts.drop (parts.length - 2)

/-- Match exactly four digits (`%Y` in `_strptime.TimeRE`). -/
def strpY (cs : List Char) : Option (Nat × List Char) :=
  match cs with
  | a :: b :: c :: d :: rest =>
    if a.isDigit ∧ b.isDigit ∧ c.isDigit ∧ d.isDigit then
      some (((digitVal a * 10 + digitVal b) * 10 + digitVal c) * 10 + digitVal d, rest)
    else none
  | _ => none

/-- Match a one-or-two digit field the way an ordered regex alternation with
backtracking does: try the two-digit alternatives (values satisfying
`valid2`) with the continuation `k` first, then the one-digit alternatives
(values satisfying `valid1`). -/
def twoOne {α : Type} (valid2 valid1 : Nat → Bool) (k : Nat → List Char → Option α)
    (cs : List Char) : Option α :=
  (match cs with
   | a :: b :: rest =>
     if a.isDigit ∧ b.isDigit ∧ valid2 (digitVal a * 10 + digitVal b) = true then
       k (digitVal a * 10 + digitVal b) rest
     else none
   | _ => none) <|>
  (match cs with
   | a :: rest =>
     if a.isDigit ∧ valid1 (digitVal a) = true then k (digitVal a) rest else none
   | _ => none)

/-- The regex of `datetime.strptime(_, '%Y%m%dT%H%MZ')` (compiled with
`re.IGNORECASE`, so the literals match either case), anchored at both ends:
year, month `1[0-2]|0[1-9]|[1-9]`, day `3[01]|[12]\d|0[1-9]|[1-9]`,
hour `2[0-3]|[0-1]\d|\d`, minute `[0-5]\d|\d`. -/
def strpYmdHM (cs : List Char) : Option (Nat × Nat × Nat × Nat × Nat) :=
  match strpY cs with
  | none => none
  | some (y, r1) =>
    twoOne (fun v => decide (1 ≤ v ∧ v ≤ 12)) (fun v => decide (1 ≤ v ∧ v ≤ 9))
      (fun mo r2 =>
        twoOne (fun v => decide (1 ≤ v ∧ v ≤ 31)) (fun v => decide (1 ≤ v ∧ v ≤ 9))
          (fun da r3 =>
            match r3 with
            | t :: r4 =>
              if t = 'T' ∨ t = 't' then
                twoOne (fun v => decide (v ≤ 23)) (fun v => decide (v ≤ 9))
                  (fun ho r5 =>
                    twoOne (fun v => decide (v ≤ 59)) (fun v => decide (v ≤ 9))
                      (fun mi r6 =>
                        match r6 with
                        | z :: r7 =>
                          if (z = 'Z' ∨ z = 'z') ∧ r7 = [] then
                            some (y, mo, da, ho, mi)
                          else none
                        | [] => none) r5) r4
              else none
            | [] => none) r2) r1

/-- Gregorian leap-year test. -/
def isLeap (y : Int) : Bool :=
  decide (y % 4 = 0 ∧ (y % 100 ≠ 0 ∨ y % 400 = 0))

/-- Number of days in a month, for `datetime`-constructor validation. -/
def daysInMonth (y m : Int) : Int :=
  if m = 2 then (if isLeap y then 29 else 28)
  else if m = 4 ∨ m = 6 ∨ m = 9 ∨ m = 11 then 30
  else 31

/-- `datetime.strptime(s, '%Y%m%dT%H%MZ')` as an epoch instant in
microseconds: `none` when the pattern does not match the whole string or
the `datetime` constructor rejects the day/month combination
(both raise `ValueError`). -/
def strptimeTs (s : String) : Option Int :=
  match strpYmdHM s.data with
  | none => none
  | some (y, mo, da, ho, mi) =>
    if 1 ≤ (y : Int) ∧ (da : Int) ≤ daysInMonth y mo then
      some (tsOfCivil y mo da ho mi 0 * 1000000)
    else none

/-- The timestamp a key is filtered by in `S3FlowLogsReader._get_keys`:
`strptime(basename(key).rsplit('_', 2)[1], '%Y%m%dT%H%MZ')`, with the
`IndexError`/`ValueError` of missing or unparseable segments caught. -/
def keyTime (key : String) : Option Int :=
  match (rsplitU2 (pyBasename key)).get? 1 with
  | none => none
  | some seg => strptimeTs seg

/-- `S3FlowLogsReader._get_keys` applied to the listed keys of a prefix:
keep a key when its embedded timestamp parses and satisfies
`start_time <= dt < end_time`; keys without a parseable timestamp are
silently skipped. -/
def getKeys (startUs endUs : Int) (keys : List String) : List String :=
  keys.filter (fun k =>
    match keyTime k with
    | none => false
    | some t => decide (startUs ≤ t ∧ t < endUs))

/-- The second-to-last underscore-delimited segment of a file name, following
the claim text literally (`none` when there are fewer than two
segments). -/
def specSecondToLastSeg (name : String) : Option String :=
  let parts := (splitOnChar '_' name.data).map List.asString
  if parts.length < 2 then none else parts.get? (parts.length - 2)

/-- The summary accumulated for one aggregation group: the first-seen record
of the group (whose non-key fields are the representative values) plus the
folded start/end/packets/bytes. -/
structure FlowSummary where
  first : FlowRecord
  startUs : Int
  endUs : Int
  packets : Option Int
  bytes : Option Int

deriving instance DecidableEq, Repr for FlowSummary

/-- Add packet/byte counts where null counts contribute no delta but are
carried when nothing else is present. -/
def addOpt : Option Int → Option Int → Option Int
  | none, b => b
  | some x, none => some x
  | some x, some y => some (x + y)

/-- Modelled from the spec: seeding of a group summary from its first record
(`aggregated_records` is part of this package but not under src/; spec
section 4.2: seed `start`, `end`, `packets`, `bytes` from the first record
and carry its non-key fields as representative values). -/
def seedSummary (r : FlowRecord) : FlowSummary :=
  ⟨r, r.start, r.end_, r.packets, r.bytes⟩

/-- Modelled from the spec: folding one more record of the same group into
its summary (`start = min(start, record.start)`,
`end = max(end, record.end)`, `packets += record.packets`,
`bytes += record.bytes`). -/
def foldSummary (s : FlowSummary) (r : FlowRecord) : FlowSummary :=
  ⟨s.first, min s.startUs r.start, max s.endUs r.end_,
    addOpt s.packets r.packets, addOpt s.bytes r.bytes⟩

/-- The default aggregation key: the tuple
(srcaddr, dstaddr, srcport, dstport, protocol). -/
def defaultKey (r : FlowRecord) :
    Option String × Option String × Option Int × Option Int × Option Int :=
  (r.srcaddr, r.dstaddr, r.srcport, r.dstport, r.protocol)

/-- Modelled from the spec: one step of the streaming groupby-and-fold —
update the existing accumulator of the record's key, or append a fresh
one seeded from the record. -/
def aggStep {κ : Type} [DecidableEq κ] (key : FlowRecord → κ) :
    List (κ × FlowSummary) → FlowRecord → List (κ × FlowSummary)
  | [], r => [(key r, seedSummary r)]
  | (k0, s0) :: rest, r =>
    if key r = k0 then (k0, foldSummary s0 r) :: rest
    else (k0, s0) :: aggStep key rest r

/-- Modelled from the spec: `aggregated_records` — a single left fold over
the record sequence holding one accumulator per distinct key seen. -/
def aggregatedRecords {κ : Type} [DecidableEq κ] (key : FlowRecord → κ)
    (rs : List FlowRecord) : List (κ × FlowSummary) :=
  rs.foldl (aggStep key) []

/-- Look up the summary of a key in the accumulator list. -/
def findKey {κ : Type} [DecidableEq κ] (k : κ) :
    List (κ × FlowSummary) → Option FlowSummary
  | [] => none
  | (k0, s0) :: rest => if k0 = k then some s0 else findKey k rest

/-- The per-record effect of aggregation on one key's accumulator: seed it if
absent, fold into it otherwise. -/
def stepOpt (os : Option FlowSummary) (r : FlowRecord) : Option FlowSummary :=
  some (match os with
        | none => seedSummary r
        | some s => foldSummary s r)

/-- Values a record slot or a foreign attribute can hold, for modelling
`getattr`-based equality against arbitrary objects. -/
inductive PyVal where
  | vInt : Int → PyVal
  | vStr : String → PyVal
  | vOptInt : Option Int → PyVal
  | vOptStr : Option String → PyVal
  | vInstant : Int → PyVal

deriving instance DecidableEq for PyVal

/-- The `__slots__` list of `FlowRecord`. -/
def SLOTS : List String :=
  ["version", "account_id", "interface_id", "srcaddr", "dstaddr", "srcport",
   "dstport", "protocol", "packets", "bytes", "start", "end", "action",
   "log_status"]

/-- `getattr` on a `FlowRecord`: defined on every slot name. -/
def recordAttr (r : FlowRecord) (s : String) : Option PyVal :=
  if s = "version" then some (.vInt r.version)
  else if s = "account_id" then some (.vStr r.account_id)
  else if s = "interface_id" then some (.vStr r.interface_id)
  else if s = "srcaddr" then some (.vOptStr r.srcaddr)
  else if s = "dstaddr" then some (.vOptStr r.dstaddr)
  else if s = "srcport" then some (.vOptInt r.srcport)
  else if s = "dstport" then some (.vOptInt r.dstport)
  else if s = "protocol" then some (.vOptInt r.protocol)
  else if s = "packets" then some (.vOptInt r.packets)
  else if s = "bytes" then some (.vOptInt r.bytes)
  else if s = "start" then some (.vInstant r.start)
  else if s = "end" then some (.vInstant r.end_)
  else if s = "action" then some (.vOptStr r.action)
  else if s = "log_status" then some (.vStr r.log_status)
  else none

/-- The generator inside `FlowRecord.__eq__`: compare `getattr(self, x)` with
`getattr(other, x)` slot by slot; a missing attribute on `other` raises
`AttributeError`, which `__eq__` catches and turns into `False`. -/
def pyEqGo (r : FlowRecord) (o : String → Option PyVal) : List String → Bool
  | [] => true
  | s :: rest =>
    match o s with
    | none => false
    | some v => decide (recordAttr r s = some v) && pyEqGo r o rest

/-- `FlowRecord.__eq__` against an arbitrary object given by its attribute
map. -/
def pyEqObj (r : FlowRecord) (o : String → Option PyVal) : Bool :=
  pyEqGo r o SLOTS

/-- First aggregation witness record: the second sample line. -/
def aggRecA : FlowRecord :=
  ⟨2, "123456789010", "eni-102010ab", some "192.0.2.1", some "198.51.100.1",
    some 49152, some 443, some 6, some 20, some 1680,
    1439387264000000, 1439387265000000, some "ACCEPT", "OK"⟩

/-- Second aggregation witness record: the third sample line with its action
replaced by ACCEPT (same default key as `aggRecA`, different
interface_id and times). -/
def aggRecB : FlowRecord :=
  ⟨2, "123456789010", "eni-102010cd", some "192.0.2.1", some "198.51.100.1",
    some 49152, some 443, some 6, some 20, some 1680,
    1439387263000000, 1439387266000000, some "ACCEPT", "OK"⟩

theorem parseAll_isSome_iff (f0 f1 f2 f3 f4 f5 f6 f7 f8 f9 f10 f11 f12 f13 : String) :
    (parseAll f0 f1 f2 f3 f4 f5 f6 f7 f8 f9 f10 f11 f12 f13).isSome = true ↔
      ((pyInt f0).isSome = true ∧ (parseTimestampTok f10).isSome = true ∧
        (parseTimestampTok f11).isSome = true ∧
        ((f13 = NODATA ∨ f13 = SKIPDATA) ∨
          ((pyInt f5).isSome = true ∧ (pyInt f6).isSome = true ∧
            (pyInt f7).isSome = true ∧ (pyInt f8).isSome = true ∧
            (pyInt f9).isSome = true))) := by
  unfold parseAll
  rcases hv : pyInt f0 with _ | v <;>
    rcases h10 : parseTimestampTok f10 with _ | st <;>
    rcases h11 : parseTimestampTok f11 with _ | en <;>
    simp only [hv, h10, h11, Option.isSome_none, Option.isSome_some] <;>
    try simp
  by_cases hs : f13 = NODATA ∨ f13 = SKIPDATA
  · simp [hs]
  · rw [if_neg hs]
    unfold parseDetail
    rcases h5 : pyInt f5 with _ | a <;> rcases h6 : pyInt f6 with _ | b <;>
      rcases h7 : pyInt f7 with _ | c <;> rcases h8 : pyInt f8 with _ | d <;>
      rcases h9 : pyInt f9 with _ | e <;> simp [hs, h5, h6, h7, h8, h9]

theorem parseAll_inv {f0 f1 f2 f3 f4 f5 f6 f7 f8 f9 f10 f11 f12 f13 : String}
    {r : FlowRecord}
    (h : parseAll f0 f1 f2 f3 f4 f5 f6 f7 f8 f9 f10 f11 f12 f13 = some r) :
    pyInt f0 = some r.version ∧ r.account_id = f1 ∧ r.interface_id = f2 ∧
      parseTimestampTok f10 = some r.start ∧ parseTimestampTok f11 = some r.end_ ∧
      r.log_status = f13 ∧
      ((f13 = NODATA ∨ f13 = SKIPDATA) →
        r.srcaddr = none ∧ r.dstaddr = none ∧ r.srcport = none ∧ r.dstport = none ∧
          r.protocol = none ∧ r.packets = none ∧ r.bytes = none ∧ r.action = none) ∧
      (¬(f13 = NODATA ∨ f13 = SKIPDATA) →
        r.srcaddr = some f3 ∧ r.dstaddr = some f4 ∧ pyInt f5 = r.srcport ∧
          pyInt f6 = r.dstport ∧ pyInt f7 = r.protocol ∧ pyInt f8 = r.packets ∧
          pyInt f9 = r.bytes ∧ r.action = some f12 ∧ r.srcport.isSome = true ∧
          r.dstport.isSome = true ∧ r.protocol.isSome = true ∧
          r.packets.isSome = true ∧ r.bytes.isSome = true) := by
  unfold parseAll at h
  rcases hv : pyInt f0 with _ | v <;> rw [hv] at h <;> try simp at h
  rcases h10 : parseTimestampTok f10 with _ | st <;> rw [h10] at h <;> try simp at h
  rcases h11 : parseTimestampTok f11 with _ | en <;> rw [h11] at h <;> try simp at h
  by_cases hs : f13 = NODATA ∨ f13 = SKIPDATA
  · rw [if_pos hs] at h
    obtain rfl := Option.some.inj h
    exact ⟨rfl, rfl, rfl, rfl, rfl, rfl, fun _ => ⟨rfl, rfl, rfl, rfl, rfl, rfl, rfl, rfl⟩,
      fun hn => absurd hs hn⟩
  · rw [if_neg hs] at h
    unfold parseDetail at h
    rcases h5 : pyInt f5 with _ | a <;> rw [h5] at h <;> try simp at h
    rcases h6 : pyInt f6 with _ | b <;> rw [h6] at h <;> try simp at h
    rcases h7 : pyInt f7 with _ | c <;> rw [h7] at h <;> try simp at h
    rcases h8 : pyInt f8 with _ | d <;> rw [h8] at h <;> try simp at h
    rcases h9 : pyInt f9 with _ | e <;> rw [h9] at h <;> try simp at h
    subst h
    exact ⟨rfl, rfl, rfl, rfl, rfl, rfl, fun hy => absurd hy hs,
      fun _ => ⟨rfl, rfl, rfl, rfl, rfl, rfl, rfl, rfl, rfl, rfl, rfl, rfl, rfl⟩⟩

theorem parseTimestampTok_val {tok : String} {us n : Int}
    (h : parseTimestampTok tok = some us) (hn : pyInt tok = some n) :
    us = if EPOCH_32_MAX < n then n * 1000 else n * 1000000 := by
  unfold parseTimestampTok at h
  rw [hn] at h
  by_cases hc : EPOCH_32_MAX < n <;>
    simp only [hc, if_true, if_false, ite_true, ite_false] at h ⊢ <;>
    split at h <;> simp_all

theorem parseTimestampTok_range {tok : String} {us : Int}
    (h : parseTimestampTok tok = some us) :
    MIN_DATETIME_S * 1000000 ≤ us ∧ us ≤ MAX_DATETIME_S * 1000000 + 999999 := by
  unfold parseTimestampTok at h
  rcases hn : pyInt tok with _ | n <;> rw [hn] at h <;> try simp at h
  by_cases hc : EPOCH_32_MAX < n
  · simp only [hc, ite_true] at h
    obtain ⟨hb, rfl⟩ := h
    exact hb
  · simp only [hc, ite_false] at h
    obtain ⟨hb, rfl⟩ := h
    exact ⟨by linarith [hb.1], hb.2⟩

theorem digitVal_ofNat (n : Nat) (h : n < 10) : digitVal (Char.ofNat (48 + n)) = n := by
  interval_cases n <;> decide

theorem digitChar_props (n : Nat) (h : n < 10) :
    (Char.ofNat (48 + n)).isDigit = true ∧ pyIsSpace (Char.ofNat (48 + n)) = false ∧
      Char.ofNat (48 + n) ≠ '-' ∧ Char.ofNat (48 + n) ≠ '+' := by
  interval_cases n <;> decide

theorem natStrAux_spec (fuel : Nat) : ∀ n, n < fuel →
    natStrAux fuel n ≠ [] ∧
    (∀ c ∈ natStrAux fuel n,
      c.isDigit = true ∧ pyIsSpace c = false ∧ c ≠ '-' ∧ c ≠ '+') ∧
    ∀ acc, (natStrAux fuel n).foldl (fun a c => a * 10 + digitVal c) acc =
      acc * 10 ^ (natStrAux fuel n).length + n := by
  induction fuel with
  | zero => exact fun n h => absurd h (Nat.not_lt_zero n)
  | succ fuel ih =>
    intro n h
    by_cases h10 : n < 10
    · simp only [natStrAux, if_pos h10]
      refine ⟨by simp, ?_, ?_⟩
      · intro c hc
        simp only [List.mem_singleton] at hc
        subst hc
        exact digitChar_props n h10
      · intro acc
        simp only [List.foldl_cons, List.foldl_nil, List.length_singleton,
          digitVal_ofNat n h10, pow_one]
    · have hrec : n / 10 < fuel := by omega
      obtain ⟨hne, hchars, hval⟩ := ih (n / 10) hrec
      simp only [natStrAux, if_neg h10]
      have hm : n % 10 < 10 := Nat.mod_lt _ (by norm_num)
      refine ⟨by simp, ?_, ?_⟩
      · intro c hc
        rcases List.mem_append.1 hc with h1 | h2
        · exact hchars c h1
        · simp only [List.mem_singleton] at h2
          subst h2
          exact digitChar_props _ hm
      · intro acc
        rw [List.foldl_append, List.length_append, List.length_singleton]
        simp only [List.foldl_cons, List.foldl_nil]
        rw [hval acc, digitVal_ofNat _ hm, pow_succ]
        have h2 : 10 * (n / 10) + n % 10 = n := Nat.div_add_mod n 10
        have h3 : (acc * 10 ^ (natStrAux fuel (n / 10)).length + n / 10) * 10 + n % 10 =
            acc * (10 ^ (natStrAux fuel (n / 10)).length * 10) +
              (10 * (n / 10) + n % 10) := by ring
        rw [h3, h2]

theorem data_asString (l : List Char) : (List.asString l).data = l := rfl

theorem digRun_cons_digit (c : Char) (cs : List Char) (acc : Nat)
    (h : c.isDigit = true) :
    digRun (c :: cs) acc = digRun cs (acc * 10 + digitVal c) := by
  rw [digRun.eq_def]
  dsimp only
  rw [if_pos h]

theorem natOfToken_cons_digit (c : Char) (cs : List Char) (h : c.isDigit = true) :
    natOfToken (c :: cs) = digRun cs (digitVal c) := by
  rw [natOfToken.eq_def]
  dsimp only
  rw [if_pos h]

theorem pyIntChars_head (c : Char) (cs : List Char) (h1 : ¬c = '-') (h2 : ¬c = '+') :
    pyIntChars (c :: cs) = (natOfToken (c :: cs)).map (fun n => (n : Int)) := by
  rw [pyIntChars.eq_def]
  dsimp only
  rw [if_neg h1, if_neg h2]

theorem digRun_all_digits (ds : List Char) :
    (∀ c ∈ ds, c.isDigit = true) → ∀ acc,
      digRun ds acc = some (ds.foldl (fun a c => a * 10 + digitVal c) acc) := by
  induction ds with
  | nil => intro _ acc; rfl
  | cons c ds ih =>
    intro h acc
    have hc := h c (by simp)
    rw [digRun_cons_digit c ds acc hc, List.foldl_cons]
    exact ih (fun x hx => h x (by simp [hx])) _

theorem natOfToken_natStr (n : Nat) : natOfToken (natStr n) = some n := by
  obtain ⟨hne, hchars, hval⟩ := natStrAux_spec (n + 1) n (Nat.lt_succ_self n)
  unfold natStr
  cases hL : natStrAux (n + 1) n with
  | nil => exact absurd hL hne
  | cons c cs =>
    rw [hL] at hchars hval
    have hc : c.isDigit = true := (hchars c (by simp)).1
    rw [natOfToken_cons_digit c cs hc]
    rw [digRun_all_digits cs (fun x hx => (hchars x (by simp [hx])).1) (digitVal c)]
    have hv := hval 0
    simp only [List.foldl_cons, Nat.zero_mul, Nat.zero_add] at hv
    rw [hv]

theorem pyInt_intStr (n : Int) : pyInt (intStr n) = some n := by
  unfold pyInt intStr
  by_cases hn : n < 0
  · rw [if_pos hn]
    show pyIntChars ('-' :: natStr n.natAbs) = some n
    have hstep : pyIntChars ('-' :: natStr n.natAbs) =
        (natOfToken (natStr n.natAbs)).map (fun m => -(m : Int)) := rfl
    rw [hstep, natOfToken_natStr]
    show some (-(n.natAbs : Int)) = some n
    congr 1
    omega
  · rw [if_neg hn]
    show pyIntChars (natStr n.natAbs) = some n
    obtain ⟨hne, hchars, -⟩ := natStrAux_spec (n.natAbs + 1) n.natAbs (Nat.lt_succ_self _)
    unfold natStr
    cases hL : natStrAux (n.natAbs + 1) n.natAbs with
    | nil => exact absurd hL hne
    | cons c cs =>
      rw [hL] at hchars
      obtain ⟨-, -, hcm, hcp⟩ := hchars c (by simp)
      rw [pyIntChars_head c cs hcm hcp]
      have hnt : natOfToken (c :: cs) = some n.natAbs := by
        rw [← hL]
        exact natOfToken_natStr n.natAbs
      rw [hnt]
      show some ((n.natAbs : Int)) = some n
      congr 1
      omega

theorem intStr_props (n : Int) :
    (intStr n).data ≠ [] ∧ ∀ c ∈ (intStr n).data, pyIsSpace c = false := by
  obtain ⟨hne, hchars, -⟩ := natStrAux_spec (n.natAbs + 1) n.natAbs (Nat.lt_succ_self _)
  unfold intStr
  by_cases hn : n < 0
  · rw [if_pos hn]
    rw [data_asString]
    refine ⟨by simp, ?_⟩
    intro c hc
    rcases List.mem_cons.1 hc with rfl | h2
    · decide
    · exact (hchars c h2).2.1
  · rw [if_neg hn]
    rw [data_asString]
    exact ⟨hne, fun c hc => (hchars c hc).2.1⟩

theorem pyInt_renderInt {v : Int} (h : v ≠ 0) : pyInt (renderInt v) = some v := by
  unfold renderInt
  rw [if_neg h]
  exact pyInt_intStr v

theorem splitWsGo_append_nonspace (t : List Char) :
    (∀ c ∈ t, pyIsSpace c = false) → ∀ cs acc,
      splitWsGo (t ++ cs) acc = splitWsGo cs (acc ++ t) := by
  induction t with
  | nil => intro _ cs acc; simp
  | cons c t ih =>
    intro h cs acc
    have hc := h c (by simp)
    simp only [List.cons_append, splitWsGo, hc, Bool.false_eq_true, if_false]
    show splitWsGo (t ++ cs) (acc ++ [c]) = splitWsGo cs (acc ++ c :: t)
    rw [ih (fun x hx => h x (by simp [hx])) cs (acc ++ [c])]
    simp

theorem splitWsGo_nil_emit (acc : List Char) (h : acc ≠ []) :
    splitWsGo [] acc = [acc] := by
  simp [splitWsGo, h]

theorem splitWsGo_space_emit (cs acc : List Char) (h : acc ≠ []) :
    splitWsGo (' ' :: cs) acc = acc :: splitWsGo cs [] := by
  have hsp : pyIsSpace ' ' = true := by decide
  simp only [splitWsGo, hsp, if_true, h, if_false]

theorem splitWsGo_joinTokens (ts : List (List Char)) :
    (∀ t ∈ ts, t ≠ [] ∧ ∀ c ∈ t, pyIsSpace c = false) →
    splitWsGo (joinTokens ts) [] = ts := by
  induction ts with
  | nil => intro _; rfl
  | cons t ts ih =>
    intro h
    obtain ⟨hne, hns⟩ := h t (by simp)
    cases ts with
    | nil =>
      show splitWsGo t [] = [t]
      conv_lhs => rw [← List.append_nil t]
      rw [splitWsGo_append_nonspace t hns [] []]
      simp only [List.nil_append]
      exact splitWsGo_nil_emit t hne
    | cons t2 ts2 =>
      show splitWsGo (t ++ ' ' :: joinTokens (t2 :: ts2)) [] = t :: t2 :: ts2
      rw [splitWsGo_append_nonspace t hns _ []]
      simp only [List.nil_append]
      rw [splitWsGo_space_emit _ t hne]
      rw [ih (fun x hx => h x (by simp [hx]))]

theorem pySplit_token_props (s t : String) (ht : t ∈ pySplit s) :
    t ≠ "" ∧ ∀ c ∈ t.data, pyIsSpace c = false := by
  unfold pySplit at ht
  obtain ⟨l, hl, rfl⟩ := List.mem_map.1 ht
  have main : ∀ cs acc, (∀ c ∈ acc, pyIsSpace c = false) →
      ∀ u ∈ splitWsGo cs acc, u ≠ [] ∧ ∀ c ∈ u, pyIsSpace c = false := by
    intro cs
    induction cs with
    | nil =>
      intro acc hacc u hu
      by_cases hacc0 : acc = [] <;> simp [splitWsGo, hacc0] at hu
      subst hu
      exact ⟨hacc0, hacc⟩
    | cons c cs ih =>
      intro acc hacc u hu
      by_cases hsp : pyIsSpace c = true
      · simp only [splitWsGo, hsp, if_true] at hu
        by_cases hacc0 : acc = []
        · rw [if_pos hacc0] at hu
          exact ih [] (by simp) u hu
        · rw [if_neg hacc0] at hu
          rcases List.mem_cons.1 hu with rfl | h2
          · exact ⟨hacc0, hacc⟩
          · exact ih [] (by simp) u h2
      · simp only [splitWsGo, hsp, if_false] at hu
        refine ih (acc ++ [c]) ?_ u hu
        intro x hx
        rcases List.mem_append.1 hx with h1 | h2
        · exact hacc x h1
        · simp only [List.mem_singleton] at h2
          subst h2
          exact Bool.not_eq_true _ ▸ hsp
  obtain ⟨h1, h2⟩ := main s.data [] (by simp) l hl
  constructor
  · intro hc
    apply h1
    have : (List.asString l).data = l := rfl
    rw [hc] at this
    exact this.symm
  · intro c hc
    have : (List.asString l).data = l := rfl
    rw [this] at hc
    exact h2 c hc

theorem renderStr_eq {s : String} (h : s ≠ "") : renderStr s = s := if_neg h

theorem renderInt_eq {v : Int} (h : v ≠ 0) : renderInt v = intStr v := if_neg h

theorem eq_empty_of_data_nil {s : String} (h : s.data = []) : s = "" := by
  obtain ⟨l⟩ := s
  simp only [String.data] at h
  subst h
  rfl

theorem strprops_of_data {s : String}
    (h : s.data ≠ [] ∧ ∀ c ∈ s.data, pyIsSpace c = false) :
    s ≠ "" ∧ ∀ c ∈ s.data, pyIsSpace c = false :=
  ⟨fun hc => h.1 (by rw [hc]), h.2⟩

theorem data_ne_of_ne {s : String} (h : s ≠ "") : s.data ≠ [] :=
  fun hc => h (eq_empty_of_data_nil hc)

theorem renderOptStr_props (o : Option String)
    (ho : ∀ s, o = some s → s ≠ "" ∧ ∀ c ∈ s.data, pyIsSpace c = false) :
    renderOptStr o ≠ "" ∧ ∀ c ∈ (renderOptStr o).data, pyIsSpace c = false := by
  cases o with
  | none => decide
  | some s =>
    have hs := ho s rfl
    show renderStr s ≠ "" ∧ ∀ c ∈ (renderStr s).data, pyIsSpace c = false
    rw [renderStr_eq hs.1]
    exact hs

theorem renderOptInt_props (o : Option Int) (ho : o ≠ some 0) :
    renderOptInt o ≠ "" ∧ ∀ c ∈ (renderOptInt o).data, pyIsSpace c = false := by
  cases o with
  | none => decide
  | some n =>
    have hn : n ≠ 0 := fun hc => ho (by rw [hc])
    show renderInt n ≠ "" ∧ ∀ c ∈ (renderInt n).data, pyIsSpace c = false
    rw [renderInt_eq hn]
    exact strprops_of_data (intStr_props n)

theorem renderTimestamp_props (us : Int) :
    renderTimestamp us ≠ "" ∧ ∀ c ∈ (renderTimestamp us).data, pyIsSpace c = false :=
  strprops_of_data (intStr_props _)

theorem parseTimestampTok_renderTimestamp {us sec : Int}
    (hsec : us = sec * 1000000) (hle : sec ≤ EPOCH_32_MAX)
    (hlo : MIN_DATETIME_S * 1000000 ≤ us)
    (hhi : us ≤ MAX_DATETIME_S * 1000000 + 999999) :
    parseTimestampTok (renderTimestamp us) = some us := by
  subst hsec
  unfold renderTimestamp
  have hd : sec * 1000000 / 1000000 = sec := by omega
  rw [hd]
  unfold parseTimestampTok
  rw [pyInt_intStr]
  dsimp only
  rw [if_neg (not_lt.2 hle)]
  rw [if_pos ⟨hlo, hhi⟩]

theorem renderOptStr_some (s : String) : renderOptStr (some s) = renderStr s := rfl

theorem renderOptInt_some (n : Int) : renderOptInt (some n) = renderInt n := rfl

/-- C1 counterexample: the valid 14-token line with srcport `0` parses, but
`to_message` renders the non-null scalar `0` as the placeholder `-`
(`str(x) if x else '-'` treats `0` as falsy), so re-parsing the serialized
record fails instead of reproducing the record. -/
theorem claim1_counterexample :
    (parseMessage ("2 123456789010 eni-102010ab 198.51.100.1 192.0.2.1 0 49152 " ++
        "6 10 840 1439387263 1439387264 ACCEPT OK")).isSome = true ∧
    (messageTokens ((parseMessage
        ("2 123456789010 eni-102010ab 198.51.100.1 192.0.2.1 0 49152 " ++
          "6 10 840 1439387263 1439387264 ACCEPT OK")).getD default)).getD 5 "" =
      "-" ∧
    parseMessage (to_message ((parseMessage
        ("2 123456789010 eni-102010ab 198.51.100.1 192.0.2.1 0 49152 " ++
          "6 10 840 1439387263 1439387264 ACCEPT OK")).getD default)) = none := by
  decide

/-- C1 (amended): parse-serialize-parse reproduces the parsed record for
every valid line whose version and non-null numeric fields are nonzero,
and whose timestamps are whole seconds not exceeding 2147483647 (otherwise
zero fields serialize to `-`, sub-second instants are truncated, and
seconds above the 32-bit bound are re-read as milliseconds); serialization
renders null fields and zero-valued fields as `-`, other non-null scalars
as their string form, and start/end as integer seconds since the epoch. -/
theorem claim1_amended_roundtrip :
    (∀ msg r, parseMessage msg = some r →
      r.version ≠ 0 →
      r.srcport ≠ some 0 → r.dstport ≠ some 0 → r.protocol ≠ some 0 →
      r.packets ≠ some 0 → r.bytes ≠ some 0 →
      (∃ sec, r.start = sec * 1000000 ∧ sec ≤ EPOCH_32_MAX) →
      (∃ sec, r.end_ = sec * 1000000 ∧ sec ≤ EPOCH_32_MAX) →
      parseMessage (to_message r) = some r) ∧
    (∀ r : FlowRecord, r.srcaddr = none → (messageTokens r).getD 3 "" = "-") ∧
    (∀ r : FlowRecord, r.packets = none → (messageTokens r).getD 8 "" = "-") ∧
    (∀ r : FlowRecord, ∀ n : Int, r.srcport = some n → n ≠ 0 →
      (messageTokens r).getD 5 "" = intStr n) ∧
    (∀ r : FlowRecord, (messageTokens r).getD 10 "" = intStr (r.start / 1000000)) := by
  refine ⟨?_, ?_, ?_, ?_, ?_⟩
  · intro msg r hp h0 hsp0 hdp0 hpr0 hpk0 hbt0 hstw hengw
    obtain ⟨sec1, hsec1, hle1⟩ := hstw
    obtain ⟨sec2, hsec2, hle2⟩ := hengw
    have hp' := hp
    unfold parseMessage parseFields at hp'
    by_cases hlen : (pySplit msg).length < 14
    · rw [if_pos hlen] at hp'
      exact absurd hp' (by simp)
    rw [if_neg hlen] at hp'
    obtain ⟨hv, hacc, hifc, hst10, hen11, hls, hsentnull, hnonsent⟩ := parseAll_inv hp'
    have hrange1 := parseTimestampTok_range hst10
    have hrange2 := parseTimestampTok_range hen11
    have htok : ∀ i, i < 14 →
        (pySplit msg).getD i "" ≠ "" ∧
          ∀ c ∈ ((pySplit msg).getD i "").data, pyIsSpace c = false := by
      intro i hi
      have hlt : i < (pySplit msg).length := by omega
      refine pySplit_token_props msg _ ?_
      rw [List.getD_eq_getElem _ _ hlt]
      exact List.getElem_mem hlt
    have haccp : r.account_id ≠ "" ∧ ∀ c ∈ r.account_id.data, pyIsSpace c = false := by
      rw [hacc]
      exact htok 1 (by norm_num)
    have hifcp : r.interface_id ≠ "" ∧ ∀ c ∈ r.interface_id.data, pyIsSpace c = false := by
      rw [hifc]
      exact htok 2 (by norm_num)
    have hlsp : r.log_status ≠ "" ∧ ∀ c ∈ r.log_status.data, pyIsSpace c = false := by
      rw [hls]
      exact htok 13 (by norm_num)
    have hsa_tok : ∀ s, r.srcaddr = some s →
        s ≠ "" ∧ ∀ c ∈ s.data, pyIsSpace c = false := by
      intro s hsa
      by_cases hs13 : (pySplit msg).getD 13 "" = NODATA ∨ (pySplit msg).getD 13 "" = SKIPDATA
      · rw [(hsentnull hs13).1] at hsa
        cases hsa
      · rw [(hnonsent hs13).1] at hsa
        obtain rfl := Option.some.inj hsa
        exact htok 3 (by norm_num)
    have hda_tok : ∀ s, r.dstaddr = some s →
        s ≠ "" ∧ ∀ c ∈ s.data, pyIsSpace c = false := by
      intro s hda
      by_cases hs13 : (pySplit msg).getD 13 "" = NODATA ∨ (pySplit msg).getD 13 "" = SKIPDATA
      · rw [(hsentnull hs13).2.1] at hda
        cases hda
      · rw [(hnonsent hs13).2.1] at hda
        obtain rfl := Option.some.inj hda
        exact htok 4 (by norm_num)
    have hact_tok : ∀ s, r.action = some s →
        s ≠ "" ∧ ∀ c ∈ s.data, pyIsSpace c = false := by
      intro s hact
      by_cases hs13 : (pySplit msg).getD 13 "" = NODATA ∨ (pySplit msg).getD 13 "" = SKIPDATA
      · rw [(hsentnull hs13).2.2.2.2.2.2.2] at hact
        cases hact
      · rw [(hnonsent hs13).2.2.2.2.2.2.2.1] at hact
        obtain rfl := Option.some.inj hact
        exact htok 12 (by norm_num)
    have hstr : ∀ s ∈ messageTokens r, s ≠ "" ∧ ∀ c ∈ s.data, pyIsSpace c = false := by
      intro s hs
      simp only [messageTokens, List.mem_cons, List.not_mem_nil, or_false] at hs
      rcases hs with rfl | rfl | rfl | rfl | rfl | rfl | rfl | rfl | rfl | rfl | rfl | rfl | rfl | rfl
      · rw [renderInt_eq h0]
        exact strprops_of_data (intStr_props _)
      · rw [renderStr_eq haccp.1]
        exact haccp
      · rw [renderStr_eq hifcp.1]
        exact hifcp
      · exact renderOptStr_props _ hsa_tok
      · exact renderOptStr_props _ hda_tok
      · exact renderOptInt_props _ hsp0
      · exact renderOptInt_props _ hdp0
      · exact renderOptInt_props _ hpr0
      · exact renderOptInt_props _ hpk0
      · exact renderOptInt_props _ hbt0
      · exact renderTimestamp_props _
      · exact renderTimestamp_props _
      · exact renderOptStr_props _ hact_tok
      · rw [renderStr_eq hlsp.1]
        exact hlsp
    have hsplit : pySplit (to_message r) = messageTokens r := by
      unfold to_message pySplit
      rw [data_asString]
      rw [splitWsGo_joinTokens _ (by
        intro t ht
        obtain ⟨s, hs, rfl⟩ := List.mem_map.1 ht
        exact ⟨data_ne_of_ne (hstr s hs).1, (hstr s hs).2⟩)]
      rw [List.map_map]
      have hid : (List.asString ∘ String.data) = id := funext fun s => rfl
      rw [hid, List.map_id]
    unfold parseMessage
    rw [hsplit]
    unfold parseFields
    rw [if_neg (by simp [messageTokens])]
    simp only [messageTokens, List.getD_cons_zero, List.getD_cons_succ]
    unfold parseAll
    rw [pyInt_renderInt h0]
    rw [parseTimestampTok_renderTimestamp hsec1 hle1 hrange1.1 hrange1.2]
    rw [parseTimestampTok_renderTimestamp hsec2 hle2 hrange2.1 hrange2.2]
    dsimp only
    rw [renderStr_eq hlsp.1]
    by_cases hsent : r.log_status = NODATA ∨ r.log_status = SKIPDATA
    · rw [if_pos hsent]
      have hs13 : (pySplit msg).getD 13 "" = NODATA ∨ (pySplit msg).getD 13 "" = SKIPDATA := by
        rw [← hls]
        exact hsent
      obtain ⟨hsa, hda, h5, h6, h7, h8, h9, hact⟩ := hsentnull hs13
      rw [renderStr_eq haccp.1, renderStr_eq hifcp.1]
      obtain ⟨ver, acc, ifc, sa, da, sp, dp, pr, pk, bt, st, en, act, ls⟩ := r
      simp only at hsa hda h5 h6 h7 h8 h9 hact
      subst hsa hda h5 h6 h7 h8 h9 hact
      rfl
    · rw [if_neg hsent]
      have hs13 : ¬((pySplit msg).getD 13 "" = NODATA ∨ (pySplit msg).getD 13 "" = SKIPDATA) := by
        rw [← hls]
        exact hsent
      obtain ⟨hsa, hda, h5, h6, h7, h8, h9, hact, hs5, hs6, hs7, hs8, hs9⟩ :=
        hnonsent hs13
      obtain ⟨spv, hspv⟩ := Option.isSome_iff_exists.1 hs5
      obtain ⟨dpv, hdpv⟩ := Option.isSome_iff_exists.1 hs6
      obtain ⟨prv, hprv⟩ := Option.isSome_iff_exists.1 hs7
      obtain ⟨pkv, hpkv⟩ := Option.isSome_iff_exists.1 hs8
      obtain ⟨btv, hbtv⟩ := Option.isSome_iff_exists.1 hs9
      have hspv0 : spv ≠ 0 := fun hc => hsp0 (by rw [hspv, hc])
      have hdpv0 : dpv ≠ 0 := fun hc => hdp0 (by rw [hdpv, hc])
      have hprv0 : prv ≠ 0 := fun hc => hpr0 (by rw [hprv, hc])
      have hpkv0 : pkv ≠ 0 := fun hc => hpk0 (by rw [hpkv, hc])
      have hbtv0 : btv ≠ 0 := fun hc => hbt0 (by rw [hbtv, hc])
      rw [hsa, hda, hact, hspv, hdpv, hprv, hpkv, hbtv]
      rw [renderOptStr_some, renderStr_eq (htok 3 (by norm_num)).1]
      rw [renderOptStr_some, renderStr_eq (htok 4 (by norm_num)).1]
      rw [renderOptStr_some, renderStr_eq (htok 12 (by norm_num)).1]
      unfold parseDetail
      rw [renderOptInt_some, pyInt_renderInt hspv0]
      rw [renderOptInt_some, pyInt_renderInt hdpv0]
      rw [renderOptInt_some, pyInt_renderInt hprv0]
      rw [renderOptInt_some, pyInt_renderInt hpkv0]
      rw [renderOptInt_some, pyInt_renderInt hbtv0]
      dsimp only
      rw [renderStr_eq haccp.1, renderStr_eq hifcp.1]
      obtain ⟨ver, acc, ifc, sa, da, sp, dp, pr, pk, bt, st, en, act, ls⟩ := r
      simp only at hsa hda hact hspv hdpv hprv hpkv hbtv
      subst hsa hda hact hspv hdpv hprv hpkv hbtv
      rfl
  · intro r h
    simp only [messageTokens, List.getD_cons_succ, List.getD_cons_zero, h, renderOptStr]
  · intro r h
    simp only [messageTokens, List.getD_cons_succ, List.getD_cons_zero, h, renderOptInt]
  · intro r n h hn
    simp only [messageTokens, List.getD_cons_succ, List.getD_cons_zero, h]
    rw [renderOptInt_some, renderInt_eq hn]
  · intro r
    simp only [messageTokens, List.getD_cons_succ, List.getD_cons_zero]
    rfl

/-- Witness for C1: the roundtrip applied to the first sample line, whose
fields are all nonzero and whose timestamps are whole seconds below the
32-bit bound. -/
theorem claim1_witness :
    parseMessage (to_message
      ⟨2, "123456789010", "eni-102010ab", some "198.51.100.1", some "192.0.2.1",
        some 443, some 49152, some 6, some 10, some 840,
        1439387263000000, 1439387264000000, some "ACCEPT", "OK"⟩) =
      some ⟨2, "123456789010", "eni-102010ab", some "198.51.100.1", some "192.0.2.1",
        some 443, some 49152, some 6, some 10, some 840,
        1439387263000000, 1439387264000000, some "ACCEPT", "OK"⟩ :=
  claim1_amended_roundtrip.1 SAMPLE_0
    ⟨2, "123456789010", "eni-102010ab", some "198.51.100.1", some "192.0.2.1",
      some 443, some 49152, some 6, some 10, some 840,
      1439387263000000, 1439387264000000, some "ACCEPT", "OK"⟩
    (by decide) (by decide) (by decide) (by decide) (by decide) (by decide)
    (by decide) ⟨1439387263, by decide, by decide⟩ ⟨1439387264, by decide, by decide⟩

/-- C2: a start token (field 10) or end token (field 11) whose integer value
`n` exceeds 2147483647 is interpreted as milliseconds since the epoch (the
parsed instant is `n * 1000` microseconds), and any `n ≤ 2147483647`
directly as seconds (`n * 1000000` microseconds); in particular the sample
line with start token `1512564058000` and end token `1512564059000` parses
to start = 2017-12-06T12:40:58Z and end = 2017-12-06T12:40:59Z. -/
theorem claim2_timestamp_heuristic :
    (∀ fs r n, parseFields fs = some r → pyInt (fs.getD 10 "") = some n →
      r.start = if EPOCH_32_MAX < n then n * 1000 else n * 1000000) ∧
    (∀ fs r n, parseFields fs = some r → pyInt (fs.getD 11 "") = some n →
      r.end_ = if EPOCH_32_MAX < n then n * 1000 else n * 1000000) ∧
    (parseMessage ("2 123456789010 eni-4b118871 - - - - - - - " ++
        "1512564058000 1512564059000 - SKIPDATA")).map FlowRecord.start =
      some (1000000 * tsOfCivil 2017 12 6 12 40 58) ∧
    (parseMessage ("2 123456789010 eni-4b118871 - - - - - - - " ++
        "1512564058000 1512564059000 - SKIPDATA")).map FlowRecord.end_ =
      some (1000000 * tsOfCivil 2017 12 6 12 40 59) := by
  refine ⟨?_, ?_, ?_, ?_⟩
  · intro fs r n hp hn
    unfold parseFields at hp
    split at hp
    · simp at hp
    · exact parseTimestampTok_val (parseAll_inv hp).2.2.2.1 hn
  · intro fs r n hp hn
    unfold parseFields at hp
    split at hp
    · simp at hp
    · exact parseTimestampTok_val (parseAll_inv hp).2.2.2.2.1 hn
  · decide
  · decide

/-- Witness for C2: the theorem applied to the start and end tokens of the
sample millisecond line. -/
theorem claim2_witness :
    ((⟨2, "123456789010", "eni-4b118871", none, none, none, none, none, none,
        none, 1512564058000000, 1512564059000000, none, "SKIPDATA"⟩ :
        FlowRecord).start =
      if EPOCH_32_MAX < (1512564058000 : Int) then 1512564058000 * 1000
      else 1512564058000 * 1000000) ∧
    ((⟨2, "123456789010", "eni-4b118871", none, none, none, none, none, none,
        none, 1512564058000000, 1512564059000000, none, "SKIPDATA"⟩ :
        FlowRecord).end_ =
      if EPOCH_32_MAX < (1512564059000 : Int) then 1512564059000 * 1000
      else 1512564059000 * 1000000) :=
  ⟨claim2_timestamp_heuristic.1
      (pySplit ("2 123456789010 eni-4b118871 - - - - - - - " ++
        "1512564058000 1512564059000 - SKIPDATA"))
      _ 1512564058000 (by decide) (by decide),
   claim2_timestamp_heuristic.2.1
      (pySplit ("2 123456789010 eni-4b118871 - - - - - - - " ++
        "1512564058000 1512564059000 - SKIPDATA"))
      _ 1512564059000 (by decide) (by decide)⟩

/-- C3 counterexample: a line splitting into 15 whitespace-delimited tokens
parses successfully, although the claim requires a failure for every line
that does not split into the expected field count of 14 tokens. -/
theorem claim3_counterexample :
    (pySplit ("2 123456789010 eni-102010ab 198.51.100.1 192.0.2.1 443 49152 " ++
        "6 10 840 1439387263 1439387264 ACCEPT OK extra")).length = 15 ∧
    (parseMessage ("2 123456789010 eni-102010ab 198.51.100.1 192.0.2.1 443 49152 " ++
        "6 10 840 1439387263 1439387264 ACCEPT OK extra")).isSome = true := by
  decide

/-- C3 (amended): parsing succeeds exactly when the line splits into at least
14 tokens (extra tokens are ignored), the required integer fields parse and
the start/end timestamps are within the representable `datetime` range;
the required integer fields are version, start and end always, and the
traffic-detail integers only when `log_status` is not `NODATA`/`SKIPDATA`. -/
theorem claim3_amended_parse_succeeds_iff (msg : String) :
    (parseMessage msg).isSome = true ↔ wellFormedFields (pySplit msg) := by
  unfold parseMessage
  generalize pySplit msg = fs
  unfold parseFields wellFormedFields
  by_cases hlen : fs.length < 14
  · rw [if_pos hlen]
    simp only [Option.isSome_none, Bool.false_eq_true, false_iff]
    exact fun hwf => absurd hwf.1 (by omega)
  · rw [if_neg hlen]
    rw [parseAll_isSome_iff]
    have h14 : 14 ≤ fs.length := by omega
    simp [h14]

/-- C4: when the 14th token (`log_status`) is `NODATA` or `SKIPDATA`, the
parsed record has null srcaddr, dstaddr, srcport, dstport, protocol,
packets, bytes and action whatever the detail tokens contain, and such a
line parses successfully whenever its version and timestamps do. -/
theorem claim4_sentinel_nulls :
    (∀ fs r, parseFields fs = some r →
      (fs.getD 13 "" = NODATA ∨ fs.getD 13 "" = SKIPDATA) →
      r.srcaddr = none ∧ r.dstaddr = none ∧ r.srcport = none ∧ r.dstport = none ∧
        r.protocol = none ∧ r.packets = none ∧ r.bytes = none ∧ r.action = none) ∧
    (∀ fs, 14 ≤ fs.length → (pyInt (fs.getD 0 "")).isSome = true →
      (parseTimestampTok (fs.getD 10 "")).isSome = true →
      (parseTimestampTok (fs.getD 11 "")).isSome = true →
      (fs.getD 13 "" = NODATA ∨ fs.getD 13 "" = SKIPDATA) →
      (parseFields fs).isSome = true) := by
  constructor
  · intro fs r hp hs
    unfold parseFields at hp
    split at hp
    · simp at hp
    · exact (parseAll_inv hp).2.2.2.2.2.2.1 hs
  · intro fs h14 h0 h10 h11 hs
    unfold parseFields
    rw [if_neg (by omega)]
    rw [parseAll_isSome_iff]
    exact ⟨h0, h10, h11, Or.inl hs⟩

/-- Witness for C4: a NODATA line whose traffic-detail tokens are arbitrary
non-numeric garbage parses successfully, and its parsed record has a null
srcaddr. -/
theorem claim4_witness :
    (parseFields (pySplit ("2 123456789010 eni-1a2b3c4d aa bb cc dd ee ff gg " ++
        "1431280876 1431280934 hh NODATA"))).isSome = true ∧
    (⟨2, "123456789010", "eni-1a2b3c4d", none, none, none, none, none, none,
        none, 1431280876000000, 1431280934000000, none, "NODATA"⟩ :
        FlowRecord).srcaddr = none :=
  ⟨claim4_sentinel_nulls.2
      (pySplit ("2 123456789010 eni-1a2b3c4d aa bb cc dd ee ff gg " ++
        "1431280876 1431280934 hh NODATA"))
      (by decide) (by decide) (by decide) (by decide) (by decide),
   (claim4_sentinel_nulls.1
      (pySplit ("2 123456789010 eni-1a2b3c4d aa bb cc dd ee ff gg " ++
        "1431280876 1431280934 hh NODATA"))
      _ (by decide) (by decide)).1⟩

/-- C5: when the paginator raises a fault whose message starts with the
duplicate-token signature, iteration ends as if exhausted and every
previously yielded event is kept; any other fault propagates unchanged
after the preceding events were yielded; and a fault-free run yields all
events. -/
theorem claim5_pagination_fault {α : Type} (pages : List (List α)) (m : String) :
    readStreams pages (some m) =
      (pages.flatten,
        if m.startsWith DUPLICATE_NEXT_TOKEN_MESSAGE then none else some m) ∧
    readStreams pages (none : Option String) = (pages.flatten, none) := by
  constructor
  · induction pages with
    | nil => by_cases hm : m.startsWith DUPLICATE_NEXT_TOKEN_MESSAGE <;>
        simp [readStreams, hm]
    | cons p ps ih => simp [readStreams, ih]
  · induction pages with
    | nil => simp [readStreams]
    | cons p ps ih => simp [readStreams, ih]

/-- Slot-wise boolean equality of records coincides with propositional
equality. -/
theorem recordEq_iff (a b : FlowRecord) : recordEq a b = true ↔ a = b := by
  cases a
  cases b
  simp only [recordEq, Bool.and_eq_true, decide_eq_true_eq, FlowRecord.mk.injEq]
  tauto

/-- C8: two records are equal exactly when all 14 fields agree; the hash is a
function of the tuple of the same 14 fields, so equal records hash
identically; and the set built from six records parsed from three distinct
lines (each used twice) has exactly three elements. -/
theorem claim8_eq_hash :
    (∀ a b : FlowRecord, recordEq a b = true ↔ a = b) ∧
    (∀ a b : FlowRecord, recordEq a b = true → recHash a = recHash b) ∧
    sampleSet.length = 3 :=
  ⟨recordEq_iff,
   fun a b h => congrArg recHash ((recordEq_iff a b).1 h),
   by decide⟩

/-- Witness for C8: the hash agreement applied to two syntactically equal
sample records. -/
theorem claim8_witness :
    recHash ⟨2, "123456789010", "eni-102010ab", some "198.51.100.1",
        some "192.0.2.1", some 443, some 49152, some 6, some 10, some 840,
        1439387263000000, 1439387264000000, some "ACCEPT", "OK"⟩ =
      recHash ⟨2, "123456789010", "eni-102010ab", some "198.51.100.1",
        some "192.0.2.1", some 443, some 49152, some 6, some 10, some 840,
        1439387263000000, 1439387264000000, some "ACCEPT", "OK"⟩ :=
  claim8_eq_hash.2.1 _ _ (by decide)

/-- C9: the day-prefix enumeration yields exactly the `YYYY/MM/DD/` fragments
of the calendar days from the start-of-day of `start_time` through the
start-of-day of `end_time` inclusive (a closed range, even when `end_time`
falls mid-day). -/
theorem claim9_date_prefixes (startUs endUs : Int) (s : String) :
    s ∈ getDatePrefixes startUs endUs ↔
      ∃ day : Int, dayNumber startUs ≤ day ∧ day ≤ dayNumber endUs ∧
        s = formatDayFrag day := by
  unfold getDatePrefixes
  simp only [List.mem_map, List.mem_range]
  constructor
  · rintro ⟨i, hi, rfl⟩
    exact ⟨dayNumber startUs + i, by omega, by omega, rfl⟩
  · rintro ⟨day, h1, h2, rfl⟩
    refine ⟨(day - dayNumber startUs).toNat, by omega, ?_⟩
    have hd : dayNumber startUs + ((day - dayNumber startUs).toNat : Int) = day := by
      omega
    rw [hd]

/-- C10: comparing a record against any object that lacks at least one of the
14 slot attributes returns `False` (the `AttributeError` is caught inside
`__eq__`) rather than raising. -/
theorem claim10_eq_non_record (r : FlowRecord) (o : String → Option PyVal)
    (h : ∃ s ∈ SLOTS, o s = none) : pyEqObj r o = false := by
  have main : ∀ l : List String, (∃ s ∈ l, o s = none) → pyEqGo r o l = false := by
    intro l hl
    induction l with
    | nil => simp at hl
    | cons s rest ih =>
      obtain ⟨t, ht, hnone⟩ := hl
      rcases List.mem_cons.1 ht with rfl | htail
      · simp [pyEqGo, hnone]
      · cases hos : o s with
        | none => simp [pyEqGo, hos]
        | some v => simp [pyEqGo, hos, ih ⟨t, htail, hnone⟩]
  exact main SLOTS h

/-- Witness for C10: comparing the default record against an attribute-free
object (such as `Ellipsis`) yields `False`. -/
theorem claim10_witness : pyEqObj default (fun _ => none) = false :=
  claim10_eq_non_record default (fun _ => none) ⟨"version", by decide, rfl⟩

/-- C6 counterexample: for a file name with exactly one underscore the code
filters on `rsplit('_', 2)[1]`, which is the *last* segment, not the
second-to-last one; the key `p/x_20150812T1230Z` is yielded for the window
[2015-08-12 12:00, 2015-08-12 13:00) although its second-to-last segment
`x` has no parseable timestamp, so the claim as stated predicts it is
skipped. -/
theorem claim6_counterexample :
    getKeys 1439380800000000 1439384400000000 ["p/x_20150812T1230Z"] =
        ["p/x_20150812T1230Z"] ∧
    specSecondToLastSeg (pyBasename "p/x_20150812T1230Z") = some "x" ∧
    strptimeTs "x" = none := by
  decide

/-- C6 (amended): a listed key is yielded exactly when the segment at index 1
of `rsplit('_', 2)` of its base file name (the second-to-last
underscore-delimited segment when the name has at least two underscores,
the part after the underscore when it has exactly one) parses in the
`YYYYMMDD'T'HHMM'Z'` format and the parsed instant `t` satisfies
`start_time <= t < end_time`; keys without such a timestamp are silently
skipped. -/
theorem claim6_amended_keys_iff (startUs endUs : Int) (keys : List String)
    (k : String) :
    k ∈ getKeys startUs endUs keys ↔
      k ∈ keys ∧ ∃ t, keyTime k = some t ∧ startUs ≤ t ∧ t < endUs := by
  unfold getKeys
  rw [List.mem_filter]
  cases hk : keyTime k with
  | none => simp [hk]
  | some t => simp [hk]

theorem stepOpt_none (r : FlowRecord) : stepOpt none r = some (seedSummary r) := rfl

theorem stepOpt_some (s : FlowSummary) (r : FlowRecord) :
    stepOpt (some s) r = some (foldSummary s r) := rfl

theorem findKey_aggStep {κ : Type} [DecidableEq κ] (key : FlowRecord → κ)
    (acc : List (κ × FlowSummary)) (r : FlowRecord) (k : κ) :
    findKey k (aggStep key acc r) =
      if key r = k then stepOpt (findKey k acc) r else findKey k acc := by
  induction acc with
  | nil =>
    by_cases h : key r = k <;>
      simp [aggStep, findKey, stepOpt, h]
  | cons p rest ih =>
    obtain ⟨k0, s0⟩ := p
    by_cases h0 : key r = k0 <;> by_cases hk : k0 = k
    · subst hk
      simp [aggStep, findKey, stepOpt, h0]
    · have hrk : ¬key r = k := fun hc => hk (h0.symm.trans hc)
      simp [aggStep, findKey, h0, hk, hrk]
    · subst hk
      simp [aggStep, findKey, h0]
    · simp [aggStep, findKey, h0, hk, ih]

theorem findKey_foldl {κ : Type} [DecidableEq κ] (key : FlowRecord → κ)
    (rs : List FlowRecord) (acc : List (κ × FlowSummary)) (k : κ) :
    findKey k (rs.foldl (aggStep key) acc) =
      (rs.filter (fun r => decide (key r = k))).foldl stepOpt (findKey k acc) := by
  induction rs generalizing acc with
  | nil => rfl
  | cons r rs ih =>
    rw [List.foldl_cons, ih]
    by_cases h : key r = k
    · rw [List.filter_cons_of_pos (by simpa using h), List.foldl_cons,
        findKey_aggStep, if_pos h]
    · rw [List.filter_cons_of_neg (by simpa using h), findKey_aggStep, if_neg h]

theorem foldl_step_some (g : List FlowRecord) (s : FlowSummary) :
    g.foldl stepOpt (some s) = some (g.foldl foldSummary s) := by
  induction g generalizing s with
  | nil => rfl
  | cons r g ih => rw [List.foldl_cons, List.foldl_cons, stepOpt_some, ih]

theorem foldl_foldSummary_components (g : List FlowRecord) (s : FlowSummary) :
    g.foldl foldSummary s =
      ⟨s.first, g.foldl (fun a r => min a r.start) s.startUs,
        g.foldl (fun a r => max a r.end_) s.endUs,
        g.foldl (fun a r => addOpt a r.packets) s.packets,
        g.foldl (fun a r => addOpt a r.bytes) s.bytes⟩ := by
  induction g generalizing s with
  | nil => rfl
  | cons r g ih => rw [List.foldl_cons, ih]; rfl

theorem keys_aggStep {κ : Type} [DecidableEq κ] (key : FlowRecord → κ)
    (acc : List (κ × FlowSummary)) (r : FlowRecord) :
    (aggStep key acc r).map Prod.fst =
      if key r ∈ acc.map Prod.fst then acc.map Prod.fst
      else acc.map Prod.fst ++ [key r] := by
  induction acc with
  | nil => simp [aggStep]
  | cons p rest ih =>
    obtain ⟨k0, s0⟩ := p
    by_cases h0 : key r = k0
    · simp [aggStep, if_pos h0, h0.symm]
    · simp only [aggStep, if_neg h0, List.map_cons, ih, List.mem_cons]
      by_cases hmem : key r ∈ rest.map Prod.fst
      · simp [hmem, fun h => h0 h]
      · simp [hmem, fun h => h0 h]

theorem nodup_aggregated {κ : Type} [DecidableEq κ] (key : FlowRecord → κ)
    (rs : List FlowRecord) :
    ((aggregatedRecords key rs).map Prod.fst).Nodup := by
  suffices main : ∀ acc : List (κ × FlowSummary), (acc.map Prod.fst).Nodup →
      ((rs.foldl (aggStep key) acc).map Prod.fst).Nodup by
    exact main [] (by simp)
  induction rs with
  | nil => exact fun acc h => h
  | cons r rs ih =>
    intro acc hacc
    rw [List.foldl_cons]
    refine ih (aggStep key acc r) ?_
    rw [keys_aggStep]
    by_cases hmem : key r ∈ acc.map Prod.fst
    · rwa [if_pos hmem]
    · rw [if_neg hmem]
      simp [List.nodup_append, hacc, hmem]

/-- C7 (spec-modelled): aggregation with the default key
(srcaddr, dstaddr, srcport, dstport, protocol) keeps exactly one summary
per distinct key tuple; a key has no summary exactly when no record maps
to it, and the summary of a non-empty group is seeded from its first-seen
record `r0` (whose non-key fields it carries) with start the minimum of
the starts, end the maximum of the ends, and packets/bytes the sums over
the group. -/
theorem claim7_aggregation :
    (∀ rs : List FlowRecord, ((aggregatedRecords defaultKey rs).map Prod.fst).Nodup) ∧
    (∀ rs k, findKey k (aggregatedRecords defaultKey rs) = none ↔
      rs.filter (fun r => decide (defaultKey r = k)) = []) ∧
    (∀ rs k r0 g, rs.filter (fun r => decide (defaultKey r = k)) = r0 :: g →
      findKey k (aggregatedRecords defaultKey rs) =
        some ⟨r0, g.foldl (fun a r => min a r.start) r0.start,
          g.foldl (fun a r => max a r.end_) r0.end_,
          g.foldl (fun a r => addOpt a r.packets) r0.packets,
          g.foldl (fun a r => addOpt a r.bytes) r0.bytes⟩) := by
  refine ⟨nodup_aggregated defaultKey, fun rs k => ?_, fun rs k r0 g hg => ?_⟩
  · unfold aggregatedRecords
    rw [findKey_foldl]
    cases hg : rs.filter (fun r => decide (defaultKey r = k)) with
    | nil => simp [findKey]
    | cons r0 g =>
      simp only [findKey, List.foldl_cons, stepOpt_none, foldl_step_some]
      simp
  · unfold aggregatedRecords
    rw [findKey_foldl, hg]
    simp only [findKey, List.foldl_cons, stepOpt_none, foldl_step_some,
      foldl_foldSummary_components]
    rfl

/-- Witness for C7: folding the two same-key sample records produces the
single summary seeded from the first with min/max/sum folds over the
rest. -/
theorem claim7_witness :
    findKey (defaultKey aggRecA) (aggregatedRecords defaultKey [aggRecA, aggRecB]) =
      some ⟨aggRecA, [aggRecB].foldl (fun a r => min a r.start) aggRecA.start,
        [aggRecB].foldl (fun a r => max a r.end_) aggRecA.end_,
        [aggRecB].foldl (fun a r => addOpt a r.packets) aggRecA.packets,
        [aggRecB].foldl (fun a r => addOpt a r.bytes) aggRecA.bytes⟩ :=
  claim7_aggregation.2.2 [aggRecA, aggRecB] (defaultKey aggRecA) aggRecA [aggRecB]
    (by decide)
